import Mathlib

/-!
Shallow embedding of the timetable scheduling core (models.py, scheduler.py)
and proofs about its specification.

Python `datetime.time` values are embedded as natural numbers counting
seconds since midnight; the order on `Nat` coincides with the order on
`time` values.  `strftime` with format HH:MM truncates to whole minutes,
which is embedded as division by 60.
-/

/-- Embedding of `models.TimeSlot`: a day string with start and end times
given in seconds since midnight. -/
structure TimeSlot where
  day : String
  start_time : Nat
  end_time : Nat
deriving DecidableEq, Repr

/-- Embedding of `TimeSlot.overlaps`: same day, and each slot starts before
the other ends. -/
def TimeSlot.overlaps (a b : TimeSlot) : Bool :=
  if a.day ≠ b.day then false
  else decide (a.start_time < b.end_time) && decide (b.start_time < a.end_time)

/-- Embedding of `TimeSlot.__eq__`: exact comparison of day, start and end
(the Python code compares the `time` objects themselves, not any
minute-normalized form). -/
def TimeSlot.eqb (a b : TimeSlot) : Bool :=
  a.day == b.day && a.start_time == b.start_time && a.end_time == b.end_time

/-- Embedding of `TimeSlot.__hash__`: the hash key is the triple of the day
and the two times truncated to whole minutes (via `strftime` with HH:MM).
Two Python slots with equal keys receive equal hashes. -/
def TimeSlot.hashKey (a : TimeSlot) : String × Nat × Nat :=
  (a.day, a.start_time / 60, a.end_time / 60)

/-- Wire form of a `TimeSlot` (`TimeSlot.to_dict`): the day together with
the two times as total minutes, standing for the strings HH:MM. -/
structure TimeSlotDict where
  day : String
  start_time : Nat
  end_time : Nat
deriving DecidableEq, Repr

/-- Embedding of `TimeSlot.to_dict`: `strftime` truncates each time to
whole minutes. -/
def TimeSlot.to_dict (t : TimeSlot) : TimeSlotDict :=
  ⟨t.day, t.start_time / 60, t.end_time / 60⟩

/-- Embedding of `TimeSlot.from_dict`: `strptime` with HH:MM reads the
minutes back, giving a time with zero seconds. -/
def TimeSlot.from_dict (d : TimeSlotDict) : TimeSlot :=
  ⟨d.day, d.start_time * 60, d.end_time * 60⟩

/-- Embedding of `models.Faculty`. -/
structure Faculty where
  id : String
  name : String
  department : String
  weekly_hours : Nat
  expertise : List String
  unavailable_slots : List TimeSlot
  preferred_slots : List TimeSlot
deriving DecidableEq, Repr

/-- Embedding of `models.Classroom`. -/
structure Classroom where
  id : String
  name : String
  capacity : Nat
  building : String
  room_type : String
  facilities : List String
  unavailable_slots : List TimeSlot
deriving DecidableEq, Repr

/-- Embedding of `models.Department`. -/
structure Department where
  id : String
  name : String
  code : String
deriving DecidableEq, Repr

/-- Embedding of `models.Course`. -/
structure Course where
  id : String
  code : String
  name : String
  department : String
  credits : Nat
  hours_per_week : Nat
  required_room_type : String
  required_facilities : List String
  min_capacity : Nat
  faculty_requirements : List String
deriving DecidableEq, Repr

/-- Embedding of `models.Assignment`: a course, faculty, classroom and
time slot chosen by the solver. -/
structure Assignment where
  course : Course
  faculty : Faculty
  classroom : Classroom
  time_slot : TimeSlot
deriving DecidableEq, Repr

/-- Wire form of a `Faculty` (`Faculty.to_dict`); time slots are serialized
through `TimeSlot.to_dict`. -/
structure FacultyDict where
  id : String
  name : String
  department : String
  weekly_hours : Nat
  expertise : List String
  unavailable_slots : List TimeSlotDict
  preferred_slots : List TimeSlotDict
deriving DecidableEq, Repr

/-- Embedding of `Faculty.to_dict`. -/
def Faculty.to_dict (f : Faculty) : FacultyDict :=
  ⟨f.id, f.name, f.department, f.weekly_hours, f.expertise,
    f.unavailable_slots.map TimeSlot.to_dict, f.preferred_slots.map TimeSlot.to_dict⟩

/-- Embedding of `Faculty.from_dict`. -/
def Faculty.from_dict (d : FacultyDict) : Faculty :=
  ⟨d.id, d.name, d.department, d.weekly_hours, d.expertise,
    d.unavailable_slots.map TimeSlot.from_dict, d.preferred_slots.map TimeSlot.from_dict⟩

/-- Wire form of a `Classroom` (`Classroom.to_dict`). -/
structure ClassroomDict where
  id : String
  name : String
  capacity : Nat
  building : String
  room_type : String
  facilities : List String
  unavailable_slots : List TimeSlotDict
deriving DecidableEq, Repr

/-- Embedding of `Classroom.to_dict`. -/
def Classroom.to_dict (r : Classroom) : ClassroomDict :=
  ⟨r.id, r.name, r.capacity, r.building, r.room_type, r.facilities,
    r.unavailable_slots.map TimeSlot.to_dict⟩

/-- Embedding of `Classroom.from_dict`. -/
def Classroom.from_dict (d : ClassroomDict) : Classroom :=
  ⟨d.id, d.name, d.capacity, d.building, d.room_type, d.facilities,
    d.unavailable_slots.map TimeSlot.from_dict⟩

/-- Embedding of `Course.to_dict`: every field is a plain scalar or string
list, so the wire form is field for field the course itself. -/
def Course.to_dict (c : Course) : Course := c

/-- Embedding of `Course.from_dict` on the output of `Course.to_dict`. -/
def Course.from_dict (c : Course) : Course := c

/-- Wire form of an `Assignment` (`Assignment.to_dict`): the four entity
snapshots. -/
structure AssignmentDict where
  course : Course
  faculty : FacultyDict
  classroom : ClassroomDict
  time_slot : TimeSlotDict
deriving DecidableEq, Repr

/-- Embedding of `Assignment.to_dict`. -/
def Assignment.to_dict (a : Assignment) : AssignmentDict :=
  ⟨a.course.to_dict, a.faculty.to_dict, a.classroom.to_dict, a.time_slot.to_dict⟩

/-- Embedding of `Assignment.from_dict`: each entity is looked up by id in
the corresponding dictionary, falling back to parsing the serialized
snapshot when the lookup misses (the Python `or`). -/
def Assignment.from_dict (d : AssignmentDict)
    (course_dict : String → Option Course)
    (faculty_dict : String → Option Faculty)
    (classroom_dict : String → Option Classroom) : Assignment :=
  { course := (course_dict d.course.id).getD (Course.from_dict d.course)
    faculty := (faculty_dict d.faculty.id).getD (Faculty.from_dict d.faculty)
    classroom := (classroom_dict d.classroom.id).getD (Classroom.from_dict d.classroom)
    time_slot := TimeSlot.from_dict d.time_slot }

/-- Embedding of the `TimetableScheduler` state: the entity collections
plus the day list and the hour periods used to build the slot grid.
Periods are (start, end) pairs in seconds since midnight. -/
structure TimetableScheduler where
  faculty : List Faculty
  classrooms : List Classroom
  courses : List Course
  departments : List Department
  days : List String
  time_periods : List (Nat × Nat)
deriving Repr

/-- The day list fixed by `TimetableScheduler.__init__`. -/
def defaultDays : List String :=
  ["Monday", "Tuesday", "Wednesday", "Thursday", "Friday"]

/-- The default hour grid of `TimetableScheduler.__init__`: hourly periods
from 08:00 to 18:00. -/
def defaultPeriods : List (Nat × Nat) :=
  (List.range 10).map (fun h => ((8 + h) * 3600, (9 + h) * 3600))

/-- Embedding of the `TimetableScheduler` constructor. -/
def mkScheduler (faculty : List Faculty) (classrooms : List Classroom)
    (courses : List Course) (departments : List Department) : TimetableScheduler :=
  ⟨faculty, classrooms, courses, departments, defaultDays, defaultPeriods⟩

/-- Embedding of `TimetableScheduler.set_time_periods`. -/
def TimetableScheduler.set_time_periods (s : TimetableScheduler)
    (periods : List (Nat × Nat)) : TimetableScheduler :=
  { s with time_periods := periods }

/-- The slot grid built at the start of `generate_timetable`: one slot per
day and period, in iteration order. -/
def TimetableScheduler.time_slots (s : TimetableScheduler) : List TimeSlot :=
  s.days.flatMap fun day =>
    s.time_periods.map fun p => ⟨day, p.1, p.2⟩

/-- A key of the decision-variable dictionary of `generate_timetable`:
course id, faculty id, classroom id and time slot. -/
structure Binding where
  c_id : String
  f_id : String
  r_id : String
  ts : TimeSlot
deriving DecidableEq, Repr

/-- The candidate bindings of `generate_timetable`, in the insertion order
of the Python dictionary: every (course, faculty, classroom, slot)
combination that survives the eligibility filters (expertise any-match,
capacity, room type, facilities, faculty and classroom availability). -/
def TimetableScheduler.bindings (s : TimetableScheduler) : List Binding :=
  s.courses.flatMap fun course =>
    (s.faculty.filter fun f =>
        course.faculty_requirements.isEmpty ||
          course.faculty_requirements.any fun req => decide (req ∈ f.expertise)).flatMap fun f =>
      (s.classrooms.filter fun r =>
          !(decide (r.capacity < course.min_capacity) || !(r.room_type == course.required_room_type) ||
            !(course.required_facilities.all fun x => decide (x ∈ r.facilities)))).flatMap fun r =>
        ((s.time_slots.filter fun ts =>
            !(f.unavailable_slots.any fun u => u.overlaps ts) &&
            !(r.unavailable_slots.any fun u => u.overlaps ts)).map fun ts =>
          Binding.mk course.id f.id r.id ts)

/-- The demand constraints of `generate_timetable` (constraint family 1):
for every course whose candidate list is nonempty, the number of selected
bindings equals `hours_per_week`.  Courses with no candidates get no
constraint, mirroring the `if course_assignments:` guard in the source. -/
def TimetableScheduler.demandOk (s : TimetableScheduler) (σ : Binding → Bool) : Bool :=
  s.courses.all fun c =>
    (s.bindings.filter fun b => b.c_id == c.id).isEmpty ||
      decide ((s.bindings.filter fun b => b.c_id == c.id).countP σ = c.hours_per_week)

/-- The faculty no-overlap constraints of `generate_timetable` (constraint
family 2): for every faculty and grid slot, when at least two candidate
bindings of that faculty overlap the slot, at most one is selected. -/
def TimetableScheduler.facultyOverlapOk (s : TimetableScheduler) (σ : Binding → Bool) : Bool :=
  s.faculty.all fun f =>
    s.time_slots.all fun t =>
      decide ((s.bindings.filter fun b => b.f_id == f.id && b.ts.overlaps t).length ≤ 1) ||
        decide ((s.bindings.filter fun b => b.f_id == f.id && b.ts.overlaps t).countP σ ≤ 1)

/-- The classroom no-overlap constraints of `generate_timetable`
(constraint family 3). -/
def TimetableScheduler.classroomOverlapOk (s : TimetableScheduler) (σ : Binding → Bool) : Bool :=
  s.classrooms.all fun r =>
    s.time_slots.all fun t =>
      decide ((s.bindings.filter fun b => b.r_id == r.id && b.ts.overlaps t).length ≤ 1) ||
        decide ((s.bindings.filter fun b => b.r_id == r.id && b.ts.overlaps t).countP σ ≤ 1)

/-- The weekly-hour cap constraints of `generate_timetable` (constraint
family 4): each faculty teaches at most `weekly_hours` selected bindings. -/
def TimetableScheduler.capOk (s : TimetableScheduler) (σ : Binding → Bool) : Bool :=
  s.faculty.all fun f =>
    (s.bindings.filter fun b => b.f_id == f.id).isEmpty ||
      decide ((s.bindings.filter fun b => b.f_id == f.id).countP σ ≤ f.weekly_hours)

/-- A valuation of the decision variables satisfies the hard constraints of
the model built by `generate_timetable`.  The soft objective only ranks
satisfying valuations, so every value the CP-SAT solver can return on
OPTIMAL or FEASIBLE satisfies this predicate. -/
def TimetableScheduler.satisfies (s : TimetableScheduler) (σ : Binding → Bool) : Bool :=
  s.demandOk σ && s.facultyOverlapOk σ && s.classroomOverlapOk σ && s.capOk σ

/-- The solution-extraction step of `generate_timetable`: resolve the ids
of a selected binding back to entities with `next(...)`; the binding is
dropped when any lookup fails. -/
def TimetableScheduler.resolve (s : TimetableScheduler) (b : Binding) : Option Assignment :=
  match s.courses.find? (fun c => c.id == b.c_id),
        s.faculty.find? (fun f => f.id == b.f_id),
        s.classrooms.find? (fun r => r.id == b.r_id) with
  | some c, some f, some r => some ⟨c, f, r, b.ts⟩
  | _, _, _ => none

/-- The assignments extracted from a valuation of the decision variables. -/
def TimetableScheduler.extract (s : TimetableScheduler) (σ : Binding → Bool) : List Assignment :=
  (s.bindings.filter σ).filterMap s.resolve

/-- Embedding of `TimetableScheduler.generate_timetable`, parameterized by
the valuation the solver returns: when the valuation satisfies the hard
constraints (the OPTIMAL or FEASIBLE statuses) the extracted assignments
are returned, otherwise the empty list. -/
def TimetableScheduler.generate_timetable (s : TimetableScheduler) (σ : Binding → Bool) :
    List Assignment :=
  if s.satisfies σ then s.extract σ else []

/-- Well-formedness of a scheduler instance: entity ids are unique and the
candidate-binding list is duplicate free, so that the embedded list of
dictionary keys coincides with the Python dictionary. -/
def TimetableScheduler.WellFormed (s : TimetableScheduler) : Prop :=
  (s.courses.map fun c => c.id).Nodup ∧
  (s.faculty.map fun f => f.id).Nodup ∧
  (s.classrooms.map fun r => r.id).Nodup ∧
  s.bindings.Nodup

instance (s : TimetableScheduler) : Decidable s.WellFormed := by
  unfold TimetableScheduler.WellFormed
  infer_instance

/-- State threaded through the greedy fallback of
`handle_last_minute_changes`: the `used_time_slots` dictionary (a set of
(entity id, slot) pairs) and the assignment list built so far. -/
structure GreedyState where
  used : List (String × TimeSlot)
  placed : List Assignment
deriving Repr

/-- The innermost classroom loop of the greedy fallback: place the course
with the given faculty and slot in the first suitable classroom that is
neither used nor unavailable, then break. -/
def tryClassrooms (course : Course) (f : Faculty) (ts : TimeSlot)
    (rooms : List Classroom) (st : GreedyState) : GreedyState :=
  match rooms with
  | [] => st
  | r :: rest =>
    if decide ((r.id, ts) ∈ st.used) then tryClassrooms course f ts rest st
    else if r.unavailable_slots.any fun u => u.overlaps ts then
      tryClassrooms course f ts rest st
    else
      { used := st.used ++ [(f.id, ts), (r.id, ts)]
        placed := st.placed ++ [⟨course, f, r, ts⟩] }

/-- The faculty loop of the greedy fallback, with the `break` that fires
when the (faculty, slot) pair became used inside the classroom loop. -/
def tryFaculty (course : Course) (ts : TimeSlot) (fs : List Faculty)
    (rooms : List Classroom) (st : GreedyState) : GreedyState :=
  match fs with
  | [] => st
  | f :: rest =>
    if decide ((f.id, ts) ∈ st.used) then tryFaculty course ts rest rooms st
    else if f.unavailable_slots.any fun u => u.overlaps ts then
      tryFaculty course ts rest rooms st
    else
      let st' := tryClassrooms course f ts rooms st
      if decide ((f.id, ts) ∈ st'.used) then st'
      else tryFaculty course ts rest rooms st'

/-- The period loop of the greedy fallback over one day, with the `break`
that fires as soon as any suitable faculty has the slot marked used. -/
def tryPeriods (course : Course) (day : String) (ps : List (Nat × Nat))
    (suitF : List Faculty) (suitR : List Classroom) (st : GreedyState) : GreedyState :=
  match ps with
  | [] => st
  | p :: rest =>
    let ts : TimeSlot := ⟨day, p.1, p.2⟩
    let st' := tryFaculty course ts suitF suitR st
    if suitF.any fun f => decide ((f.id, ts) ∈ st'.used) then st'
    else tryPeriods course day rest suitF suitR st'

/-- The day loop of the greedy fallback, with the `break` that fires when
any suitable faculty has any slot of the current day marked used. -/
def tryDays (periods : List (Nat × Nat)) (course : Course) (days : List String)
    (suitF : List Faculty) (suitR : List Classroom) (st : GreedyState) : GreedyState :=
  match days with
  | [] => st
  | d :: rest =>
    let st' := tryPeriods course d periods suitF suitR st
    if suitF.any fun f => periods.any fun p =>
        decide ((f.id, (⟨d, p.1, p.2⟩ : TimeSlot)) ∈ st'.used) then st'
    else tryDays periods course rest suitF suitR st'

/-- One course of the greedy fallback: filter suitable faculty and
classrooms with the eligibility tests of the source, skip the course when
either list is empty, otherwise walk days and periods. -/
def greedyCourse (s : TimetableScheduler) (availF : List Faculty)
    (availR : List Classroom) (course : Course) (st : GreedyState) : GreedyState :=
  let suitF := availF.filter fun f =>
    course.faculty_requirements.isEmpty ||
      course.faculty_requirements.any fun req => decide (req ∈ f.expertise)
  if suitF.isEmpty then st
  else
    let suitR := availR.filter fun r =>
      decide (course.min_capacity ≤ r.capacity) &&
      r.room_type == course.required_room_type &&
      (course.required_facilities.all fun x => decide (x ∈ r.facilities))
    if suitR.isEmpty then st
    else tryDays s.time_periods course s.days suitF suitR st

/-- The in-place augmentation of a faculty during repair: for each kept
assignment of this faculty, append its slot to `unavailable_slots` unless
one of the slots already collected overlaps it.  The Python code mutates
the caller-owned object; the embedding returns the mutated value. -/
def augmentFaculty (kept : List Assignment) (f : Faculty) : Faculty :=
  kept.foldl
    (fun f a =>
      if a.faculty.id == f.id &&
          !(f.unavailable_slots.any fun u => u.overlaps a.time_slot) then
        { f with unavailable_slots := f.unavailable_slots ++ [a.time_slot] }
      else f)
    f

/-- The in-place augmentation of a classroom during repair, mirroring
`augmentFaculty`. -/
def augmentClassroom (kept : List Assignment) (r : Classroom) : Classroom :=
  kept.foldl
    (fun r a =>
      if a.classroom.id == r.id &&
          !(r.unavailable_slots.any fun u => u.overlaps a.time_slot) then
        { r with unavailable_slots := r.unavailable_slots ++ [a.time_slot] }
      else r)
    r

/-- The tail of `handle_last_minute_changes` after the residual problem is
assembled: run the mini scheduler, and when fewer assignments than affected
courses came back, run the greedy fallback over the courses that received
no assignment at all. -/
def repairFinish (s : TimetableScheduler) (kept : List Assignment)
    (affected : List Course) (availF : List Faculty) (availR : List Classroom)
    (used0 : List (String × TimeSlot)) (σ : Binding → Bool) : List Assignment :=
  let mini := mkScheduler availF availR affected s.departments
  let additional := mini.generate_timetable σ
  let updated := kept ++ additional
  if additional.length < affected.length then
    let scheduledIds := additional.map fun a => a.course.id
    let unscheduled := affected.filter fun c => !(scheduledIds.contains c.id)
    (unscheduled.foldl (fun st c => greedyCourse s availF availR c st)
      ⟨used0, updated⟩).placed
  else updated

/-- Result of the repair path: the returned assignment list together with
the post-call state of the caller-owned faculty and classroom collections.
The Python code mutates `unavailable_slots` on the objects the caller
passed to the constructor; the embedding makes that heap effect explicit by
returning the collections as they stand after the call. -/
structure RepairOutcome where
  result : List Assignment
  faculty_after : List Faculty
  classrooms_after : List Classroom
deriving Repr

/-- Embedding of `TimetableScheduler.handle_last_minute_changes`,
parameterized by the valuation the residual CP-SAT solve returns (compare
`generate_timetable`).  `None` arguments in Python are coerced to empty
lists before the body runs, so lists suffice here. -/
def TimetableScheduler.handle_last_minute_changes (s : TimetableScheduler)
    (timetable : List Assignment) (unavailable_faculty : List String)
    (unavailable_classrooms : List String) (additional_courses : List Course)
    (σ : Binding → Bool) : RepairOutcome :=
  if unavailable_faculty.isEmpty && unavailable_classrooms.isEmpty &&
      additional_courses.isEmpty then
    ⟨timetable, s.faculty, s.classrooms⟩
  else
    let affectedP : Assignment → Bool := fun a =>
      (!unavailable_faculty.isEmpty && decide (a.faculty.id ∈ unavailable_faculty)) ||
      (!unavailable_classrooms.isEmpty && decide (a.classroom.id ∈ unavailable_classrooms))
    let kept := timetable.filter fun a => !affectedP a
    let affected := (timetable.filter affectedP).map (fun a => a.course) ++ additional_courses
    if affected.isEmpty then ⟨timetable, s.faculty, s.classrooms⟩
    else
      let availF0 := s.faculty.filter fun f =>
        unavailable_faculty.isEmpty || !(decide (f.id ∈ unavailable_faculty))
      let availR0 := s.classrooms.filter fun r =>
        unavailable_classrooms.isEmpty || !(decide (r.id ∈ unavailable_classrooms))
      let used0 := (kept.map fun a => (a.faculty.id, a.time_slot)) ++
        (kept.map fun a => (a.classroom.id, a.time_slot))
      let availF := availF0.map (augmentFaculty kept)
      let availR := availR0.map (augmentClassroom kept)
      let result := repairFinish s kept affected availF availR used0 σ
      let postF := s.faculty.map fun f =>
        if unavailable_faculty.isEmpty || !(decide (f.id ∈ unavailable_faculty)) then
          augmentFaculty kept f
        else f
      let postR := s.classrooms.map fun r =>
        if unavailable_classrooms.isEmpty || !(decide (r.id ∈ unavailable_classrooms)) then
          augmentClassroom kept r
        else r
      ⟨result, postF, postR⟩

/-- Monday 08:00 to 09:00, in seconds since midnight. -/
def slotMon8 : TimeSlot := ⟨"Monday", 28800, 32400⟩

/-- Monday 09:00 to 10:00. -/
def slotMon9 : TimeSlot := ⟨"Monday", 32400, 36000⟩

/-- A faculty member with a weekly cap of one hour. -/
def facF1 : Faculty := ⟨"F1", "Prof A", "D1", 1, [], [], []⟩

/-- A faculty member with the default weekly cap of twenty hours. -/
def facF2 : Faculty := ⟨"F2", "Prof B", "D1", 20, [], [], []⟩

/-- A thirty-seat lecture room with no special facilities. -/
def roomR1 : Classroom := ⟨"R1", "Room 1", 30, "B1", "Lecture", [], []⟩

/-- A second lecture room. -/
def roomR2 : Classroom := ⟨"R2", "Room 2", 30, "B1", "Lecture", [], []⟩

/-- A one-hour lecture course with no special requirements. -/
def courseK1 : Course := ⟨"K1", "CS101", "Intro", "D1", 3, 1, "Lecture", [], 10, []⟩

/-- A second one-hour lecture course. -/
def courseK2 : Course := ⟨"K2", "CS102", "Data", "D1", 3, 1, "Lecture", [], 10, []⟩

/-- A one-hour course demanding a Lab room; the instances below have no Lab
room, so this course has no candidate binding. -/
def courseKLab : Course := ⟨"KL", "CS103", "Lab", "D1", 3, 1, "Lab", [], 10, []⟩

/-- A two-hour lecture course. -/
def courseK3 : Course := ⟨"K3", "CS104", "Algo", "D1", 3, 2, "Lecture", [], 10, []⟩

/-- A scheduler holding one schedulable course and one course without any
candidate binding, over a single 08:00 to 09:00 period per day. -/
def s1 : TimetableScheduler :=
  (mkScheduler [facF2] [roomR1] [courseK1, courseKLab] []).set_time_periods
    [(28800, 32400)]

/-- A valuation selecting exactly the Monday bindings of `s1`. -/
def valuation1 : Binding → Bool := fun b => b.ts.day == "Monday"

/-- A scheduler with a single two-hour course over two periods per day. -/
def schedW : TimetableScheduler :=
  (mkScheduler [facF2] [roomR1] [courseK3] []).set_time_periods
    [(28800, 32400), (32400, 36000)]

/-- A valuation selecting exactly the two Monday bindings of `schedW`. -/
def valuationW : Binding → Bool := fun b => b.ts.day == "Monday"

/-- A scheduler for the repair scenarios: one faculty member at a weekly
cap of one hour, one room, one course. -/
def s4 : TimetableScheduler := mkScheduler [facF1] [roomR1] [courseK1] []

/-- A prior solution of `s4`: `facF1` already teaches its one allowed hour
on Monday 08:00. -/
def prior4 : List Assignment := [⟨courseK1, facF1, roomR1, slotMon8⟩]

/-- A valuation selecting the residual binding at Monday 09:00. -/
def valuation4 : Binding → Bool := fun b => b.ts == slotMon9

/-- A scheduler for the frame-effect scenario: one faculty member and two
rooms, two courses. -/
def s5 : TimetableScheduler :=
  mkScheduler [facF1] [roomR1, roomR2] [courseK1, courseK2] []

/-- A prior solution of `s5` using both rooms. -/
def prior5 : List Assignment :=
  [⟨courseK1, facF1, roomR1, slotMon8⟩, ⟨courseK2, facF1, roomR2, slotMon9⟩]

/-- A valuation selecting nothing. -/
def valuationNone : Binding → Bool := fun _ => false

/-- A concrete assignment for the serialization round trip. -/
def assignW : Assignment := ⟨courseK1, facF1, roomR1, slotMon8⟩

/-- Course lookup dictionary containing the entity of `assignW`. -/
def courseDictW : String → Option Course :=
  fun i => if i == "K1" then some courseK1 else none

/-- Faculty lookup dictionary containing the entity of `assignW`. -/
def facultyDictW : String → Option Faculty :=
  fun i => if i == "F1" then some facF1 else none

/-- Classroom lookup dictionary containing the entity of `assignW`. -/
def classroomDictW : String → Option Classroom :=
  fun i => if i == "R1" then some roomR1 else none

/-- Monday 08:00:30 to 09:00: the same slot as `slotMon8` up to seconds,
hence with the same minute-normalized triple. -/
def slotMon8s : TimeSlot := ⟨"Monday", 28830, 32400⟩

/-- A list containing two distinct values has at least two entries. -/
theorem one_lt_length_of_two_mem {α : Type} {l : List α} {a b : α}
    (ha : a ∈ l) (hb : b ∈ l) (hne : a ≠ b) : 1 < l.length := by
  cases l with
  | nil => cases ha
  | cons x t =>
    cases t with
    | nil =>
      rw [List.mem_singleton] at ha hb
      exact absurd (ha.trans hb.symm) hne
    | cons y u => simp [List.length]

/-- Every candidate binding resolves its ids against members of the entity
collections and carries a grid slot. -/
theorem mem_bindings_spec (s : TimetableScheduler) (b : Binding)
    (hb : b ∈ s.bindings) :
    (∃ c ∈ s.courses, c.id = b.c_id) ∧ (∃ f ∈ s.faculty, f.id = b.f_id) ∧
    (∃ r ∈ s.classrooms, r.id = b.r_id) ∧ b.ts ∈ s.time_slots := by
  unfold TimetableScheduler.bindings at hb
  simp only [List.mem_flatMap, List.mem_filter, List.mem_map] at hb
  obtain ⟨c, hc, f, ⟨hf, -⟩, r, ⟨hr, -⟩, ts, ⟨hts, -⟩, hmk⟩ := hb
  cases hmk
  exact ⟨⟨c, hc, rfl⟩, ⟨f, hf, rfl⟩, ⟨r, hr, rfl⟩, hts⟩

/-- Every grid slot comes from a day and a period of the scheduler. -/
theorem mem_time_slots_spec (s : TimetableScheduler) (ts : TimeSlot)
    (h : ts ∈ s.time_slots) :
    ∃ d ∈ s.days, ∃ p ∈ s.time_periods, ts = ⟨d, p.1, p.2⟩ := by
  unfold TimetableScheduler.time_slots at h
  simp only [List.mem_flatMap, List.mem_map] at h
  obtain ⟨d, hd, p, hp, hts⟩ := h
  exact ⟨d, hd, p, hp, hts.symm⟩

/-- A slot whose start precedes its end overlaps itself. -/
theorem overlaps_self (t : TimeSlot) (h : t.start_time < t.end_time) :
    t.overlaps t = true := by
  simp [TimeSlot.overlaps, h]

/-- What a successful id resolution yields: entities of the collections
whose ids are the ids of the binding, and the slot of the binding. -/
theorem resolve_spec (s : TimetableScheduler) (b : Binding) (a : Assignment)
    (h : s.resolve b = some a) :
    a.course ∈ s.courses ∧ a.course.id = b.c_id ∧
    a.faculty ∈ s.faculty ∧ a.faculty.id = b.f_id ∧
    a.classroom ∈ s.classrooms ∧ a.classroom.id = b.r_id ∧
    a.time_slot = b.ts := by
  unfold TimetableScheduler.resolve at h
  cases hc : s.courses.find? (fun c => c.id == b.c_id) with
  | none => rw [hc] at h; cases h
  | some c =>
    cases hf : s.faculty.find? (fun f => f.id == b.f_id) with
    | none => rw [hc, hf] at h; cases h
    | some f =>
      cases hr : s.classrooms.find? (fun r => r.id == b.r_id) with
      | none => rw [hc, hf, hr] at h; cases h
      | some r =>
        rw [hc, hf, hr] at h
        cases h
        refine ⟨List.mem_of_find?_eq_some hc, ?_,
          List.mem_of_find?_eq_some hf, ?_,
          List.mem_of_find?_eq_some hr, ?_, rfl⟩
        · simpa using List.find?_some hc
        · simpa using List.find?_some hf
        · simpa using List.find?_some hr

/-- Id resolution succeeds on every candidate binding. -/
theorem resolve_isSome (s : TimetableScheduler) (b : Binding)
    (hb : b ∈ s.bindings) : ∃ a, s.resolve b = some a := by
  obtain ⟨⟨c, hc, hcid⟩, ⟨f, hf, hfid⟩, ⟨r, hr, hrid⟩, -⟩ := mem_bindings_spec s b hb
  unfold TimetableScheduler.resolve
  have h1 : (s.courses.find? (fun c => c.id == b.c_id)).isSome := by
    rw [List.find?_isSome]
    exact ⟨c, hc, by simp [hcid]⟩
  have h2 : (s.faculty.find? (fun f => f.id == b.f_id)).isSome := by
    rw [List.find?_isSome]
    exact ⟨f, hf, by simp [hfid]⟩
  have h3 : (s.classrooms.find? (fun r => r.id == b.r_id)).isSome := by
    rw [List.find?_isSome]
    exact ⟨r, hr, by simp [hrid]⟩
  obtain ⟨c1, hc1⟩ := Option.isSome_iff_exists.mp h1
  obtain ⟨f1, hf1⟩ := Option.isSome_iff_exists.mp h2
  obtain ⟨r1, hr1⟩ := Option.isSome_iff_exists.mp h3
  rw [hc1, hf1, hr1]
  exact ⟨⟨c1, f1, r1, b.ts⟩, rfl⟩

/-- Counting after extraction equals counting on the bindings, whenever the
counted predicates agree across resolution. -/
theorem countP_filterMap_resolve (s : TimetableScheduler)
    (p : Assignment → Bool) (q : Binding → Bool) :
    ∀ l : List Binding, (∀ b ∈ l, b ∈ s.bindings) →
      (∀ b ∈ s.bindings, ∀ a, s.resolve b = some a → p a = q b) →
      (l.filterMap s.resolve).countP p = l.countP q := by
  intro l
  induction l with
  | nil => intro _ _; simp
  | cons b t ih =>
    intro hl hpq
    have hb : b ∈ s.bindings := hl b (List.mem_cons_self b t)
    obtain ⟨a, ha⟩ := resolve_isSome s b hb
    rw [List.filterMap_cons, ha, List.countP_cons, List.countP_cons,
      hpq b hb a ha, ih (fun x hx => hl x (List.mem_cons_of_mem b hx)) hpq]

/-- Splitting a satisfying valuation into the four constraint families. -/
theorem satisfies_parts (s : TimetableScheduler) (σ : Binding → Bool)
    (h : s.satisfies σ = true) :
    s.demandOk σ = true ∧ s.facultyOverlapOk σ = true ∧
    s.classroomOverlapOk σ = true ∧ s.capOk σ = true := by
  unfold TimetableScheduler.satisfies at h
  simp only [Bool.and_eq_true] at h
  exact ⟨h.1.1.1, h.1.1.2, h.1.2, h.2⟩

/-- The demand constraint read off a satisfying valuation: a course with a
nonempty candidate list receives exactly its weekly hours. -/
theorem demand_of_satisfies (s : TimetableScheduler) (σ : Binding → Bool)
    (h : s.satisfies σ = true) (c : Course) (hc : c ∈ s.courses)
    (hne : s.bindings.filter (fun b => b.c_id == c.id) ≠ []) :
    (s.bindings.filter (fun b => b.c_id == c.id)).countP σ = c.hours_per_week := by
  have hd := (satisfies_parts s σ h).1
  unfold TimetableScheduler.demandOk at hd
  rw [List.all_eq_true] at hd
  have := hd c hc
  rw [Bool.or_eq_true] at this
  rcases this with h1 | h1
  · exact absurd (List.isEmpty_iff.mp h1) hne
  · exact of_decide_eq_true h1

/-- Two selected candidate bindings of one faculty member never overlap,
when every period runs forward in time: the no-overlap constraint family
of the model forbids it. -/
theorem faculty_exclusive (s : TimetableScheduler) (σ : Binding → Bool)
    (hper : ∀ p ∈ s.time_periods, p.1 < p.2) (hsat : s.satisfies σ = true)
    (b1 b2 : Binding) (h1 : b1 ∈ s.bindings) (h2 : b2 ∈ s.bindings)
    (hne : b1 ≠ b2) (hσ1 : σ b1 = true) (hσ2 : σ b2 = true)
    (hf : b1.f_id = b2.f_id) : b1.ts.overlaps b2.ts = false := by
  by_contra hcon
  rw [Bool.not_eq_false] at hcon
  obtain ⟨-, ⟨f, hfm, hfid⟩, -, -⟩ := mem_bindings_spec s b2 h2
  obtain ⟨-, -, -, hts2⟩ := mem_bindings_spec s b2 h2
  have hself : b2.ts.overlaps b2.ts = true := by
    obtain ⟨d, -, p, hp, hts⟩ := mem_time_slots_spec s b2.ts hts2
    exact overlaps_self b2.ts (by rw [hts]; exact hper p hp)
  have hov := (satisfies_parts s σ hsat).2.1
  unfold TimetableScheduler.facultyOverlapOk at hov
  rw [List.all_eq_true] at hov
  have hov2 := hov f hfm
  rw [List.all_eq_true] at hov2
  have hov3 := hov2 b2.ts hts2
  rw [Bool.or_eq_true] at hov3
  have hm1 : b1 ∈ s.bindings.filter (fun b => b.f_id == f.id && b.ts.overlaps b2.ts) := by
    rw [List.mem_filter]
    exact ⟨h1, by simp [hfid ▸ hf, hcon]⟩
  have hm2 : b2 ∈ s.bindings.filter (fun b => b.f_id == f.id && b.ts.overlaps b2.ts) := by
    rw [List.mem_filter]
    exact ⟨h2, by simp [hfid, hself]⟩
  rcases hov3 with hg | hg
  · have := of_decide_eq_true hg
    exact absurd (one_lt_length_of_two_mem hm1 hm2 hne) (by omega)
  · have hle := of_decide_eq_true hg
    rw [List.countP_eq_length_filter] at hle
    have hm1f : b1 ∈ (s.bindings.filter
        (fun b => b.f_id == f.id && b.ts.overlaps b2.ts)).filter σ :=
      List.mem_filter.mpr ⟨hm1, hσ1⟩
    have hm2f : b2 ∈ (s.bindings.filter
        (fun b => b.f_id == f.id && b.ts.overlaps b2.ts)).filter σ :=
      List.mem_filter.mpr ⟨hm2, hσ2⟩
    exact absurd (one_lt_length_of_two_mem hm1f hm2f hne) (by omega)

/-- Two selected candidate bindings in one classroom never overlap. -/
theorem classroom_exclusive (s : TimetableScheduler) (σ : Binding → Bool)
    (hper : ∀ p ∈ s.time_periods, p.1 < p.2) (hsat : s.satisfies σ = true)
    (b1 b2 : Binding) (h1 : b1 ∈ s.bindings) (h2 : b2 ∈ s.bindings)
    (hne : b1 ≠ b2) (hσ1 : σ b1 = true) (hσ2 : σ b2 = true)
    (hr : b1.r_id = b2.r_id) : b1.ts.overlaps b2.ts = false := by
  by_contra hcon
  rw [Bool.not_eq_false] at hcon
  obtain ⟨-, -, ⟨r, hrm, hrid⟩, hts2⟩ := mem_bindings_spec s b2 h2
  have hself : b2.ts.overlaps b2.ts = true := by
    obtain ⟨d, -, p, hp, hts⟩ := mem_time_slots_spec s b2.ts hts2
    exact overlaps_self b2.ts (by rw [hts]; exact hper p hp)
  have hov := (satisfies_parts s σ hsat).2.2.1
  unfold TimetableScheduler.classroomOverlapOk at hov
  rw [List.all_eq_true] at hov
  have hov2 := hov r hrm
  rw [List.all_eq_true] at hov2
  have hov3 := hov2 b2.ts hts2
  rw [Bool.or_eq_true] at hov3
  have hm1 : b1 ∈ s.bindings.filter (fun b => b.r_id == r.id && b.ts.overlaps b2.ts) := by
    rw [List.mem_filter]
    exact ⟨h1, by simp [hrid ▸ hr, hcon]⟩
  have hm2 : b2 ∈ s.bindings.filter (fun b => b.r_id == r.id && b.ts.overlaps b2.ts) := by
    rw [List.mem_filter]
    exact ⟨h2, by simp [hrid, hself]⟩
  rcases hov3 with hg | hg
  · have := of_decide_eq_true hg
    exact absurd (one_lt_length_of_two_mem hm1 hm2 hne) (by omega)
  · have hle := of_decide_eq_true hg
    rw [List.countP_eq_length_filter] at hle
    have hm1f : b1 ∈ (s.bindings.filter
        (fun b => b.r_id == r.id && b.ts.overlaps b2.ts)).filter σ :=
      List.mem_filter.mpr ⟨hm1, hσ1⟩
    have hm2f : b2 ∈ (s.bindings.filter
        (fun b => b.r_id == r.id && b.ts.overlaps b2.ts)).filter σ :=
      List.mem_filter.mpr ⟨hm2, hσ2⟩
    exact absurd (one_lt_length_of_two_mem hm1f hm2f hne) (by omega)

/-- C7: `TimeSlot.overlaps` returns true exactly when the days agree and
each slot starts before the other ends; the function is total by
construction and symmetric. -/
theorem claim_C7_overlaps (a b : TimeSlot) :
    (a.overlaps b = true ↔
      a.day = b.day ∧ a.start_time < b.end_time ∧ b.start_time < a.end_time) ∧
    a.overlaps b = b.overlaps a := by
  constructor
  · unfold TimeSlot.overlaps
    by_cases h : a.day = b.day <;> simp [h]
  · unfold TimeSlot.overlaps
    by_cases h : a.day = b.day
    · simp [h, Bool.and_comm]
    · have h2 : b.day ≠ a.day := fun hh => h hh.symm
      simp [h, h2]

/-- C8, counterexample: two slots that agree on the minute-normalized
triple (the hash key) but differ in seconds are not equal under
`TimeSlot.__eq__`, refuting that equality is by the minute-normalized
triple. -/
theorem claim_C8_counterexample :
    slotMon8.hashKey = slotMon8s.hashKey ∧ slotMon8.eqb slotMon8s = false := by
  decide

/-- C8 (amended): `TimeSlot.__eq__` compares the exact (day, start, end)
triple, not its minute normalization; equal slots always have equal hash
keys, so equality still implies hash agreement. -/
theorem claim_C8_eq_hash (a b : TimeSlot) :
    (a.eqb b = true ↔
      a.day = b.day ∧ a.start_time = b.start_time ∧ a.end_time = b.end_time) ∧
    (a.eqb b = true → a.hashKey = b.hashKey) := by
  constructor
  · simp [TimeSlot.eqb, and_assoc]
  · intro h
    simp only [TimeSlot.eqb, Bool.and_eq_true, beq_iff_eq] at h
    obtain ⟨⟨h1, h2⟩, h3⟩ := h
    simp [TimeSlot.hashKey, h1, h2, h3]

/-- C9: serializing an assignment whose slot times have zero seconds and
parsing it back through lookup dictionaries containing its entities yields
the assignment unchanged. -/
theorem claim_C9_roundtrip (a : Assignment)
    (cd : String → Option Course) (fd : String → Option Faculty)
    (rd : String → Option Classroom)
    (hs : a.time_slot.start_time % 60 = 0) (he : a.time_slot.end_time % 60 = 0)
    (hc : cd a.course.id = some a.course) (hf : fd a.faculty.id = some a.faculty)
    (hr : rd a.classroom.id = some a.classroom) :
    Assignment.from_dict a.to_dict cd fd rd = a := by
  obtain ⟨c, f, r, t⟩ := a
  obtain ⟨d, st, en⟩ := t
  simp only at hs he hc hf hr
  simp [Assignment.from_dict, Assignment.to_dict, Course.to_dict,
    Faculty.to_dict, Classroom.to_dict, TimeSlot.to_dict, TimeSlot.from_dict,
    hc, hf, hr]
  constructor <;> omega

/-- C9, witness: the round trip at a concrete assignment. -/
theorem claim_C9_roundtrip_witness :
    (assignW.time_slot.start_time % 60 = 0 ∧ assignW.time_slot.end_time % 60 = 0 ∧
      courseDictW assignW.course.id = some assignW.course ∧
      facultyDictW assignW.faculty.id = some assignW.faculty ∧
      classroomDictW assignW.classroom.id = some assignW.classroom) ∧
    Assignment.from_dict assignW.to_dict courseDictW facultyDictW classroomDictW = assignW :=
  ⟨⟨by decide, by decide, by decide, by decide, by decide⟩,
    claim_C9_roundtrip assignW courseDictW facultyDictW classroomDictW
      (by decide) (by decide) (by decide) (by decide) (by decide)⟩

/-- C6: repair with all three mutation lists empty returns the prior
timetable itself, and leaves the entity collections untouched. -/
theorem claim_C6_empty_noop (s : TimetableScheduler) (T : List Assignment)
    (σ : Binding → Bool) :
    (s.handle_last_minute_changes T [] [] [] σ).result = T := rfl

/-- C10: when the unavailability lists touch no assignment of the prior
timetable and no course is added, repair returns the prior timetable
unchanged, before any residual solve. -/
theorem claim_C10_untouched (s : TimetableScheduler) (T : List Assignment)
    (uF uR : List String) (σ : Binding → Bool)
    (hne : uF ≠ [] ∨ uR ≠ [])
    (h : ∀ a ∈ T, a.faculty.id ∉ uF ∧ a.classroom.id ∉ uR) :
    (s.handle_last_minute_changes T uF uR [] σ).result = T := by
  have hg : (uF.isEmpty && uR.isEmpty && List.isEmpty ([] : List Course)) = false := by
    rcases hne with h1 | h1
    · have h2 : uF.isEmpty = false := by
        cases uF
        · exact absurd rfl h1
        · rfl
      simp [h2]
    · have h2 : uR.isEmpty = false := by
        cases uR
        · exact absurd rfl h1
        · rfl
      simp [h2]
  have hfil : T.filter (fun a =>
      (!uF.isEmpty && decide (a.faculty.id ∈ uF)) ||
      (!uR.isEmpty && decide (a.classroom.id ∈ uR))) = [] := by
    rw [List.filter_eq_nil_iff]
    intro a ha
    simp [(h a ha).1, (h a ha).2]
  unfold TimetableScheduler.handle_last_minute_changes
  rw [hg]
  simp only [Bool.false_eq_true, if_false, hfil]
  rfl

/-- C10, witness: a repair call naming an id that occurs nowhere in the
prior timetable returns it unchanged. -/
theorem claim_C10_witness :
    ((["ZZ"] : List String) ≠ [] ∨ ([] : List String) ≠ []) ∧
    (∀ a ∈ prior4, a.faculty.id ∉ (["ZZ"] : List String) ∧
      a.classroom.id ∉ ([] : List String)) ∧
    (s4.handle_last_minute_changes prior4 ["ZZ"] [] [] valuationNone).result = prior4 :=
  ⟨by decide, by decide,
    claim_C10_untouched s4 prior4 ["ZZ"] [] valuationNone (by decide) (by decide)⟩

/-- C5: the repair path appends the kept Monday 08:00 slot to the
unavailable slots of the caller-owned faculty object, so the collections
the caller passed to the constructor are mutated by the call: the claim
that they stay unchanged fails on the code. -/
theorem claim_C5_mutates_caller :
    (s5.handle_last_minute_changes prior5 [] ["R2"] [] valuationNone).faculty_after ≠
      s5.faculty ∧
    (s5.handle_last_minute_changes prior5 [] ["R2"] [] valuationNone).faculty_after =
      [{ facF1 with unavailable_slots := [slotMon8] }] ∧
    s5.faculty = [facF1] ∧ facF1.unavailable_slots = [] := by
  decide

/-- C2: a course whose candidate list is empty after the eligibility
filter does not make the model infeasible and is not reported: the guard
`if course_assignments:` skips its demand constraint, a valuation ignoring
the course satisfies every emitted constraint, and the returned solution
silently omits the course while scheduling the others. -/
theorem claim_C2_silent_omission :
    s1.bindings.filter (fun b => b.c_id == "KL") = [] ∧
    s1.satisfies valuation1 = true ∧
    s1.generate_timetable valuation1 ≠ [] ∧
    (s1.generate_timetable valuation1).countP (fun a => a.course.id == "KL") = 0 ∧
    courseKLab ∈ s1.courses ∧ courseKLab.hours_per_week = 1 := by
  decide

/-- C1, counterexample: a satisfying valuation of the model of `s1` whose
extracted solution is nonempty yet contains zero assignments of the course
`courseKLab`, although that course demands one hour: the demand invariant
fails for courses without candidate bindings. -/
theorem claim_C1_counterexample :
    s1.satisfies valuation1 = true ∧
    courseKLab ∈ s1.courses ∧ courseKLab.hours_per_week = 1 ∧
    (s1.generate_timetable valuation1).countP (fun a => a.course == courseKLab) = 0 ∧
    s1.generate_timetable valuation1 ≠ [] := by
  decide

/-- C1 (amended): for every satisfying valuation and every course with at
least one candidate binding, the extracted solution contains exactly
`hours_per_week` assignments of that course.  Courses with no candidate
binding are exempt, as the counterexample forces. -/
theorem claim_C1_demand (s : TimetableScheduler) (σ : Binding → Bool)
    (hwf : s.WellFormed) (hsat : s.satisfies σ = true)
    (c : Course) (hc : c ∈ s.courses)
    (hne : s.bindings.filter (fun b => b.c_id == c.id) ≠ []) :
    (s.generate_timetable σ).countP (fun a => a.course == c) = c.hours_per_week := by
  have hkey : ∀ b ∈ s.bindings, ∀ a, s.resolve b = some a →
      ((a.course == c) = (b.c_id == c.id)) := by
    intro b hb a ha
    obtain ⟨hcm, hcid, -⟩ := resolve_spec s b a ha
    by_cases hx : b.c_id = c.id
    · have hac : a.course = c :=
        List.inj_on_of_nodup_map hwf.1 hcm hc (by rw [hcid, hx])
      simp [hac, hx]
    · have hac : a.course ≠ c := fun hh => hx (by rw [← hcid, hh])
      simp [hac, hx]
  rw [TimetableScheduler.generate_timetable, if_pos hsat]
  unfold TimetableScheduler.extract
  rw [countP_filterMap_resolve s (fun a => a.course == c) (fun b => b.c_id == c.id)
    (s.bindings.filter σ) (fun b hb => (List.mem_filter.mp hb).1) hkey]
  rw [List.countP_filter]
  have hd := demand_of_satisfies s σ hsat c hc hne
  rw [List.countP_filter] at hd
  rw [← hd]
  exact List.countP_congr fun x hx => by rw [Bool.and_comm]

/-- C1, witness: the amended demand theorem at a concrete scheduler with a
two-hour course. -/
theorem claim_C1_witness :
    schedW.WellFormed ∧ schedW.satisfies valuationW = true ∧
    courseK3 ∈ schedW.courses ∧
    schedW.bindings.filter (fun b => b.c_id == courseK3.id) ≠ [] ∧
    (schedW.generate_timetable valuationW).countP (fun a => a.course == courseK3) = 2 :=
  ⟨by decide, by decide, by decide, by decide,
    claim_C1_demand schedW valuationW (by decide) (by decide) courseK3
      (by decide) (by decide)⟩

/-- C3: in every solution extracted from a satisfying valuation, no two
distinct assignments share a faculty member on overlapping slots, and no
two share a classroom on overlapping slots. -/
theorem claim_C3_no_conflicts (s : TimetableScheduler) (σ : Binding → Bool)
    (hwf : s.WellFormed) (hper : ∀ p ∈ s.time_periods, p.1 < p.2)
    (hsat : s.satisfies σ = true) :
    (s.generate_timetable σ).Pairwise (fun a1 a2 =>
      (a1.faculty = a2.faculty → a1.time_slot.overlaps a2.time_slot = false) ∧
      (a1.classroom = a2.classroom → a1.time_slot.overlaps a2.time_slot = false)) := by
  rw [TimetableScheduler.generate_timetable, if_pos hsat]
  unfold TimetableScheduler.extract
  rw [List.pairwise_filterMap]
  have hnd : (s.bindings.filter σ).Nodup := hwf.2.2.2.filter σ
  apply hnd.pairwise_of_forall_ne
  intro b1 hb1 b2 hb2 hne
  intro a1 ha1 a2 ha2
  have ha1' : s.resolve b1 = some a1 := Option.mem_def.mp ha1
  have ha2' : s.resolve b2 = some a2 := Option.mem_def.mp ha2
  obtain ⟨hb1m, hσ1⟩ := List.mem_filter.mp hb1
  obtain ⟨hb2m, hσ2⟩ := List.mem_filter.mp hb2
  obtain ⟨-, -, -, hfid1, -, hrid1, hts1⟩ := resolve_spec s b1 a1 ha1'
  obtain ⟨-, -, -, hfid2, -, hrid2, hts2⟩ := resolve_spec s b2 a2 ha2'
  constructor
  · intro hfe
    rw [hts1, hts2]
    exact faculty_exclusive s σ hper hsat b1 b2 hb1m hb2m hne hσ1 hσ2
      (by rw [← hfid1, ← hfid2, hfe])
  · intro hre
    rw [hts1, hts2]
    exact classroom_exclusive s σ hper hsat b1 b2 hb1m hb2m hne hσ1 hσ2
      (by rw [← hrid1, ← hrid2, hre])

/-- C3, witness: the exclusivity theorem at a concrete scheduler whose
extracted solution has two assignments. -/
theorem claim_C3_witness :
    schedW.WellFormed ∧ (∀ p ∈ schedW.time_periods, p.1 < p.2) ∧
    schedW.satisfies valuationW = true ∧
    (schedW.generate_timetable valuationW).Pairwise (fun a1 a2 =>
      (a1.faculty = a2.faculty → a1.time_slot.overlaps a2.time_slot = false) ∧
      (a1.classroom = a2.classroom → a1.time_slot.overlaps a2.time_slot = false)) :=
  ⟨by decide, by decide, by decide,
    claim_C3_no_conflicts schedW valuationW (by decide) (by decide) (by decide)⟩

/-- C4: the repair planner can exceed a faculty weekly-hour cap.  At this
input `facF1` has a cap of one hour and already teaches one kept hour; the
residual model for the added course caps only the new assignments, so the
valuation `valuation4` satisfies it, yet the combined output carries two
assignments of `facF1` -- invariant 7 of the specification is violated. -/
theorem claim_C4_cap_violation :
    (mkScheduler [augmentFaculty prior4 facF1] [augmentClassroom prior4 roomR1]
      [courseK2] []).satisfies valuation4 = true ∧
    (s4.handle_last_minute_changes prior4 [] [] [courseK2] valuation4).result.countP
      (fun a => a.faculty.id == "F1") = 2 ∧
    facF1.weekly_hours = 1 := by
  decide
